import Mathlib

/-!
Verification development for the forcedTranscribe repository.

Shallow embedding of the two algorithmic components:
* `adjust_pauses_for_hf_pipeline_output` (src/lib/whisper_transcribers.py),
  modelled both as a pure value-level pass over the chunk list and as a
  heap-level pass that makes the Python aliasing of the shallow list copy
  observable;
* `textgrid_from_transcription` (src/lib/textgrid_handler.py) and the
  flat-chunk variant of the same name (src/lib/utilities.py), modelled over
  a Python-value universe `PyVal` so that key errors, type errors and the
  praat TextGrid interval operations are explicit.

Timestamps are embedded as exact rationals.
-/

set_option allowUnsafeReducibility true in
attribute [semireducible] Rat.add Rat.sub Rat.mul Rat.div Rat.inv Rat.neg

namespace FT

/-- Python value universe: the shapes the transcription dictionaries take.
Numbers are modelled as exact rationals. -/
inductive PyVal where
  | pstr : String → PyVal
  | pnum : Rat → PyVal
  | plist : List PyVal → PyVal
  | pdict : List (String × PyVal) → PyVal

mutual

/-- Structural boolean equality on Python values (Python `==` on these shapes). -/
def pyEqb : PyVal → PyVal → Bool
  | PyVal.pstr a, PyVal.pstr b => a == b
  | PyVal.pnum a, PyVal.pnum b => a == b
  | PyVal.plist a, PyVal.plist b => pyEqbList a b
  | PyVal.pdict a, PyVal.pdict b => pyEqbDict a b
  | _, _ => false

/-- Elementwise equality of Python lists. -/
def pyEqbList : List PyVal → List PyVal → Bool
  | [], [] => true
  | x :: xs, y :: ys => pyEqb x y && pyEqbList xs ys
  | _, _ => false

/-- Entrywise equality of Python dicts (as ordered association lists). -/
def pyEqbDict : List (String × PyVal) → List (String × PyVal) → Bool
  | [], [] => true
  | x :: xs, y :: ys => (x.1 == y.1 && pyEqb x.2 y.2) && pyEqbDict xs ys
  | _, _ => false

end

/-- Python dict lookup `d[k]`: the value, or a KeyError. -/
def dictGet (d : List (String × PyVal)) (k : String) : Except String PyVal :=
  match d.find? (fun p => p.1 == k) with
  | some p => Except.ok p.2
  | none => Except.error ("KeyError: " ++ k)

/-- Python `k in d` membership test for a dict. -/
def hasKey (d : List (String × PyVal)) (k : String) : Bool :=
  (d.find? (fun p => p.1 == k)).isSome

/-- Python list indexing `xs[i]` with negative-index wraparound: a negative
index counts from the end; any index still out of range is an IndexError. -/
def pyIndex (xs : List PyVal) (i : Int) : Except String PyVal :=
  let j : Int := if i < 0 then i + xs.length else i
  match xs[j.toNat]?, decide (0 ≤ j) with
  | some v, true => Except.ok v
  | _, _ => Except.error "IndexError: list index out of range"

/-- Python `range(a, b)` over integers. -/
def pyRange (a b : Int) : List Int :=
  (List.range (b - a).toNat).map (fun k => a + k)

/-- Coerce a `PyVal` to a dict, as Python operations that require a dict do. -/
def asDict : PyVal → Except String (List (String × PyVal))
  | PyVal.pdict d => Except.ok d
  | _ => Except.error "TypeError: expected dict"

/-- Coerce a `PyVal` to a list. -/
def asList : PyVal → Except String (List PyVal)
  | PyVal.plist l => Except.ok l
  | _ => Except.error "TypeError: expected list"

/-- Coerce a `PyVal` to a string. -/
def asStr : PyVal → Except String String
  | PyVal.pstr s => Except.ok s
  | _ => Except.error "TypeError: expected str"

/-- Coerce a `PyVal` to a number. -/
def asNum : PyVal → Except String Rat
  | PyVal.pnum x => Except.ok x
  | _ => Except.error "TypeError: expected number"

/-- One interval of a praat TextGrid interval tier. -/
structure Interval where
  tmin : Rat
  tmax : Rat
  label : String
deriving DecidableEq

/-- A praat interval tier: its intervals in temporal order. -/
abbrev Tier := List Interval

/-- A praat TextGrid: named tiers in order (tier numbers are 1-based positions). -/
structure TextGrid where
  tiers : List (String × Tier)
deriving DecidableEq

/-- praat "Insert boundary": split the interval strictly containing time `t`.
Praat raises an error when `t` lies outside every interval's interior
(outside the time domain, or exactly on an existing boundary); on a split the
old label stays with the left part and the right part starts empty. -/
def insertBoundary : Tier → Rat → Except String Tier
  | [], _ => Except.error "PraatError: cannot add boundary"
  | iv :: rest, t =>
    if iv.tmin < t ∧ t < iv.tmax then
      Except.ok (⟨iv.tmin, t, iv.label⟩ :: ⟨t, iv.tmax, ""⟩ :: rest)
    else
      (insertBoundary rest t).map (fun r => iv :: r)

/-- praat "Set interval text" with a 1-based interval number. -/
def setIntervalText : Tier → Nat → String → Except String Tier
  | [], _, _ => Except.error "PraatError: interval out of range"
  | _ :: _, 0, _ => Except.error "PraatError: interval out of range"
  | iv :: rest, 1, s => Except.ok (⟨iv.tmin, iv.tmax, s⟩ :: rest)
  | iv :: rest, Nat.succ (Nat.succ n), s =>
    (setIntervalText rest (Nat.succ n) s).map (fun r => iv :: r)

/-- Apply a fallible tier transformation to the tier at 1-based position `n`. -/
def modifyTier : List (String × Tier) → Nat → (Tier → Except String Tier) →
    Except String (List (String × Tier))
  | [], _, _ => Except.error "PraatError: tier out of range"
  | _ :: _, 0, _ => Except.error "PraatError: tier out of range"
  | nt :: rest, 1, f => (f nt.2).map (fun t => (nt.1, t) :: rest)
  | nt :: rest, Nat.succ (Nat.succ n), f =>
    (modifyTier rest (Nat.succ n) f).map (fun r => nt :: r)

/-- praat "Insert boundary" on tier number `n` of a TextGrid. -/
def tgInsertBoundary (tg : TextGrid) (n : Nat) (t : Rat) : Except String TextGrid :=
  (modifyTier tg.tiers n (fun tier => insertBoundary tier t)).map TextGrid.mk

/-- praat "Set interval text" on tier number `n`, interval number `k`. -/
def tgSetIntervalText (tg : TextGrid) (n : Nat) (k : Nat) (s : String) :
    Except String TextGrid :=
  (modifyTier tg.tiers n (fun tier => setIntervalText tier k s)).map TextGrid.mk

/-- One recognized chunk: its text and its timestamp pair
(src/lib/whisper_transcribers.py, the elements of pipeline_output["chunks"]). -/
structure Chunk where
  text : String
  t0 : Rat
  t1 : Rat
deriving DecidableEq

/-- The distributed half of a positive pause g: split_threshold / 2 when
the pause exceeds the threshold, else pause_duration / 2
(src/lib/whisper_transcribers.py lines 67-70). -/
def pdistOf (thr g : Rat) : Rat :=
  if thr < g then thr / 2 else g / 2

/-- One iteration of the loop in adjust_pauses_for_hf_pipeline_output
(src/lib/whisper_transcribers.py lines 58-76), acting on the chunk list
by value: read chunks i and i+1, and when the pause between them is
positive move both sides of the gap inward by the distributed half. -/
def adjustStep (thr : Rat) (chunks : List Chunk) (i : Nat) : List Chunk :=
  match chunks[i]?, chunks[i+1]? with
  | some cur, some nxt =>
    if 0 < nxt.t0 - cur.t1 then
      (chunks.set i ⟨cur.text, cur.t0, cur.t1 + pdistOf thr (nxt.t0 - cur.t1)⟩).set (i+1)
        ⟨nxt.text, nxt.t0 - pdistOf thr (nxt.t0 - cur.t1), nxt.t1⟩
    else chunks
  | _, _ => chunks

/-- Value-level model of adjust_pauses_for_hf_pipeline_output
(src/lib/whisper_transcribers.py lines 51-79): the contents of the chunk
list after the for-loop over range(len(chunks) - 1). -/
def adjust_pauses_for_hf_pipeline_output (chunks : List Chunk) (thr : Rat := 12/100) :
    List Chunk :=
  (List.range (chunks.length - 1)).foldl (adjustStep thr) chunks

/-- The amount distributed at pair i, read off the original chunk list:
the loop's pause at pair i is the original pause, because the previous
iteration only moved chunk i's start, not its end. -/
def pauseDist (thr : Rat) (chunks : List Chunk) (i : Nat) : Rat :=
  match chunks[i]?, chunks[i+1]? with
  | some cur, some nxt =>
    if 0 < nxt.t0 - cur.t1 then pdistOf thr (nxt.t0 - cur.t1) else 0
  | _, _ => 0

/-- Closed form of the adjusted chunk at index i. -/
def adjustedChunk (thr : Rat) (chunks : List Chunk) (i : Nat) (c : Chunk) : Chunk :=
  ⟨c.text,
   c.t0 - (if i = 0 then 0 else pauseDist thr chunks (i - 1)),
   c.t1 + pauseDist thr chunks i⟩

/-- How much chunk i's start has moved left after the loop has processed
pairs 0..m-1. -/
def startShift (thr : Rat) (chunks : List Chunk) (m i : Nat) : Rat :=
  if 1 ≤ i ∧ i ≤ m then pauseDist thr chunks (i - 1) else 0

/-- How much chunk i's end has moved right after the loop has processed
pairs 0..m-1. -/
def endShift (thr : Rat) (chunks : List Chunk) (m i : Nat) : Rat :=
  if i < m then pauseDist thr chunks i else 0

/-- The chunk at index i after the loop has processed pairs 0..m-1. -/
def partialAdjusted (thr : Rat) (chunks : List Chunk) (m i : Nat) (c : Chunk) : Chunk :=
  ⟨c.text, c.t0 - startShift thr chunks m i, c.t1 + endShift thr chunks m i⟩

/-- Heap-level model of one loop iteration of
adjust_pauses_for_hf_pipeline_output: the chunk dicts live in a store
(address = position in `store`), and the list `refs` holds references to
them, exactly as the Python list holds references to the chunk dicts.
The two timestamp assignments update the dicts in the store in place. -/
def adjustStepRef (thr : Rat) (refs : List Nat) (st : List Chunk) (i : Nat) :
    List Chunk :=
  match refs[i]?, refs[i+1]? with
  | some a, some b =>
    match st[a]?, st[b]? with
    | some cur, some nxt =>
      if 0 < nxt.t0 - cur.t1 then
        (st.set a ⟨cur.text, cur.t0, cur.t1 + pdistOf thr (nxt.t0 - cur.t1)⟩).set b
          ⟨nxt.text, nxt.t0 - pdistOf thr (nxt.t0 - cur.t1), nxt.t1⟩
      else st
    | _, _ => st
  | _, _ => st

/-- Heap-level model of adjust_pauses_for_hf_pipeline_output.
`pipeline_output["chunks"].copy()` is a shallow copy: a fresh list value
holding the same references, so `adjRefs := refs`. The function returns
the final store together with the reference list installed back into
pipeline_output["chunks"]; the caller's original list still holds `refs`
into the same store. -/
def adjustH (store : List Chunk) (refs : List Nat) (thr : Rat) :
    List Chunk × List Nat :=
  let adjRefs := refs
  let store' := (List.range (adjRefs.length - 1)).foldl (adjustStepRef thr adjRefs) store
  (store', adjRefs)

/-- Read the chunk dicts a reference list points at. -/
def readRefs (store : List Chunk) (refs : List Nat) : List (Option Chunk) :=
  refs.map (fun a => store[a]?)

/-- The Python list comprehension `[xs[x][key] for x in idxs]` where every
element must be a dict and the field a string (as `" ".join` requires). -/
def gatherField (xs : List PyVal) (key : String) : List Int → Except String (List String)
  | [] => Except.ok []
  | i :: rest => do
    let v ← pyIndex xs i
    let d ← asDict v
    let s ← asStr (← dictGet d key)
    let others ← gatherField xs key rest
    Except.ok (s :: others)

/-- Indexed monadic fold over a list, mirroring `for ii, x in enumerate(xs)`. -/
def foldlIdxM {σ α : Type} (f : σ → Nat → α → Except String σ) (k : Nat) (init : σ) :
    List α → Except String σ
  | [] => Except.ok init
  | a :: rest => do
    let s' ← f init k a
    foldlIdxM f (k+1) s' rest

/-- The mutable locals of the segment/word loop of
textgrid_from_transcription (src/lib/textgrid_handler.py lines 80-168):
the TextGrid under construction, the counters i and j, the two
same-boundary run counters, and the function-scoped `text` local
(None until first assigned; using it unassigned is Python's
UnboundLocalError). -/
structure SegLoopState where
  tg : TextGrid
  i : Nat
  j : Nat
  sbSeg : Nat
  sbWord : Nat
  text : Option String
deriving DecidableEq

/-- Body of the inner word loop of textgrid_from_transcription
(src/lib/textgrid_handler.py lines 129-168) for word index jj of segment
ii. The second branch reproduces the source's stray statement
`+segment["text"]` on line 150, which applies unary plus to a str and
raises TypeError after the join's element lookups; the third branch
reproduces line 158, which reads key "word" on the segment dict. -/
def processWord (duration : Rat) (word_ntier : Nat) (segd : List (String × PyVal))
    (words : List PyVal) (ii : Nat) (st : SegLoopState) (jj : Nat) (wordv : PyVal) :
    Except String SegLoopState := do
  let wd ← asDict wordv
  let interval_num := st.j + 1
  let t0 ← asNum (← dictGet wd "start")
  let t1 ← asNum (← dictGet wd "end")
  if ¬ (duration ≤ t1) ∧ ¬ (t0 = t1) then do
    let tg ← tgInsertBoundary st.tg word_ntier t1
    let txt ← asStr (← dictGet wd "word")
    let tg ← tgSetIntervalText tg word_ntier interval_num txt
    Except.ok { st with tg := tg, sbWord := 0, text := some txt, j := st.j + 1 }
  else if t0 = t1 ∧ 0 < jj then do
    let sbWord := st.sbWord + 1
    let _parts ← gatherField words "word" (pyRange ((ii : Int) - (sbWord : Int)) (jj : Int))
    Except.error "TypeError: bad operand type for unary +: str"
  else if t0 = t1 ∧ jj = 0 then do
    let tg ← tgInsertBoundary st.tg word_ntier (t1 + 1/1000)
    let txt ← asStr (← dictGet segd "word")
    let tg ← tgSetIntervalText tg word_ntier interval_num txt
    Except.ok { st with tg := tg, text := some txt, j := st.j + 1 }
  else
    match st.text with
    | none => Except.error "UnboundLocalError: text referenced before assignment"
    | some txt => do
      let tg ← tgSetIntervalText st.tg word_ntier interval_num txt
      Except.ok { st with tg := tg, j := st.j + 1 }

/-- Body of the outer segment loop of textgrid_from_transcription
(src/lib/textgrid_handler.py lines 86-168) for segment index ii: the
segment-level block (lines 88-126, with the stray `+segment["text"]` of
line 108 raising TypeError in the same-boundary branch, and no branch at
all when the segment reaches the total duration so that `text` keeps its
previous value), followed by the word-level block. -/
def segBlock (duration : Rat) (segment_level : Bool) (segments : List PyVal)
    (st : SegLoopState) (ii : Nat) (segv : PyVal) : Except String SegLoopState :=
  if segment_level then do
    let segd ← asDict segv
    let interval_num := st.i + 1
    let t0 ← asNum (← dictGet segd "start")
    let t1 ← asNum (← dictGet segd "end")
    if ¬ (duration ≤ t1) ∧ ¬ (t0 = t1) then do
      let tg ← tgInsertBoundary st.tg 2 t1
      let txt ← asStr (← dictGet segd "text")
      let tg ← tgSetIntervalText tg 2 interval_num txt
      Except.ok { st with tg := tg, sbSeg := 0, text := some txt, i := st.i + 1 }
    else if t0 = t1 ∧ 0 < ii then do
      let sbSeg := st.sbSeg + 1
      let _parts ← gatherField segments "text" (pyRange ((ii : Int) - (sbSeg : Int)) (ii : Int))
      Except.error "TypeError: bad operand type for unary +: str"
    else if t0 = t1 ∧ ii = 0 then do
      let tg ← tgInsertBoundary st.tg 2 (t1 + 1/1000)
      let txt ← asStr (← dictGet segd "text")
      let tg ← tgSetIntervalText tg 2 interval_num txt
      Except.ok { st with tg := tg, text := some txt, i := st.i + 1 }
    else
      match st.text with
      | none => Except.error "UnboundLocalError: text referenced before assignment"
      | some txt => do
        let tg ← tgSetIntervalText st.tg 2 interval_num txt
        Except.ok { st with tg := tg, i := st.i + 1 }
  else Except.ok st

/-- The word-level block of the segment loop (src/lib/textgrid_handler.py
lines 129-168): loop over this segment's "words" list. -/
def wordBlock (duration : Rat) (word_level : Bool) (word_ntier : Nat)
    (st : SegLoopState) (ii : Nat) (segv : PyVal) : Except String SegLoopState :=
  if word_level then do
    let segd ← asDict segv
    let words ← asList (← dictGet segd "words")
    foldlIdxM (fun s jj w => processWord duration word_ntier segd words ii s jj w) 0 st words
  else Except.ok st

def processSegment (duration : Rat) (segment_level word_level : Bool) (word_ntier : Nat)
    (segments : List PyVal) (st : SegLoopState) (ii : Nat) (segv : PyVal) :
    Except String SegLoopState := do
  let st1 ← segBlock duration segment_level segments st ii segv
  wordBlock duration word_level word_ntier st1 ii segv

/-- The validation at the top of textgrid_from_transcription
(src/lib/textgrid_handler.py lines 38-41): the transcription must be a
dict and must contain the key "text". -/
def checkTrans (transcription : PyVal) : Except String (List (String × PyVal)) :=
  match transcription with
  | PyVal.pdict d =>
    if hasKey d "text" = false then
      Except.error "ValueError: text not found in transcription."
    else Except.ok d
  | _ => Except.error "ValueError: transcription must be of type dict."

/-- The word_level feature check (src/lib/textgrid_handler.py lines 51-58):
the source evaluates transcription["segments"][0] unconditionally, so a
missing "segments" key is a KeyError here; otherwise word_level is disabled
(with a logged warning) when the first segment has no "words" key. -/
def wordCheck (tdict : List (String × PyVal)) (word_level : Bool)
    (tier_names : List String) : Except String (Bool × List String) :=
  if word_level then do
    let segs ← asList (← dictGet tdict "segments")
    let firstd ← asDict (← pyIndex segs 0)
    if hasKey firstd "words" = false then Except.ok (false, tier_names)
    else Except.ok (true, tier_names ++ ["words"])
  else Except.ok (false, tier_names)

/-- The segment/word loop (src/lib/textgrid_handler.py lines 80-168),
entered only when segment_level or word_level survived the checks. -/
def runSegLoop (duration : Rat) (segment_level word_level : Bool) (word_ntier : Nat)
    (tdict : List (String × PyVal)) (tg : TextGrid) : Except String TextGrid :=
  if segment_level || word_level then do
    let segs ← asList (← dictGet tdict "segments")
    let st ← foldlIdxM
      (fun s ii segv => processSegment duration segment_level word_level word_ntier segs s ii segv)
      0 ⟨tg, 0, 0, 0, 0, none⟩ segs
    Except.ok st.tg
  else Except.ok tg

/-- TextGrid creation and filling (src/lib/textgrid_handler.py lines
60-168): praat requires the end time to exceed the start time; the tiers
are created over [0, duration], the full text is written into tier 1, the
word tier number is 3 when a segment tier is present and 2 otherwise, and
the segment/word loop runs. -/
def mkAndFill (duration : Rat) (segment_level word_level : Bool)
    (tier_names : List String) (tdict : List (String × PyVal)) :
    Except String TextGrid :=
  if duration ≤ 0 then
    Except.error "PraatError: end time should be greater than start time."
  else do
    let tg : TextGrid := ⟨tier_names.map (fun nm => (nm, [⟨0, duration, ""⟩]))⟩
    let fullText ← asStr (← dictGet tdict "text")
    let tg ← tgSetIntervalText tg 1 1 fullText
    let word_ntier := if segment_level then 3 else 2
    runSegLoop duration segment_level word_level word_ntier tdict tg

/-- Model of textgrid_from_transcription (src/lib/textgrid_handler.py,
lines 6-170): validation of the transcription dict, feature disabling for
segment_level (lines 43-50) and word_level (lines 51-58), then TextGrid
creation and the segment/word loop. -/
def textgrid_from_transcription (transcription : PyVal) (duration : Rat)
    (segment_level : Bool := false) (word_level : Bool := false) :
    Except String TextGrid := do
  let tdict ← checkTrans transcription
  let pair1 : Bool × List String :=
    if segment_level then
      if hasKey tdict "segments" = false then (false, ["text"])
      else (true, ["text", "segments"])
    else (false, ["text"])
  let pair2 ← wordCheck tdict word_level pair1.2
  mkAndFill duration pair1.1 pair2.1 pair2.2 tdict

/-- Python membership test `k in v` for the value shapes that support it:
key membership for dicts, substring test for strings, element membership
for lists; `in` on a number raises TypeError. -/
def pyContains (v : PyVal) (k : String) : Except String Bool :=
  match v with
  | PyVal.pdict d => Except.ok (hasKey d k)
  | PyVal.pstr s => Except.ok (s.containsSubstr k.toSubstring)
  | PyVal.plist l => Except.ok (l.any (fun x => pyEqb x (PyVal.pstr k)))
  | PyVal.pnum _ => Except.error "TypeError: argument of type number is not iterable"

namespace Utilities

/-- praat "Get interval at time": the 1-based index of the interval whose
half-open span [tmin, tmax) contains t (0 when t falls in no interval). -/
def getIntervalAt (tier : Tier) (t : Rat) : Nat :=
  match tier with
  | [] => 0
  | iv :: rest =>
    if iv.tmin ≤ t ∧ t < iv.tmax then 1
    else
      match getIntervalAt rest t with
      | 0 => 0
      | n + 1 => n + 2

/-- Python tuple unpacking `t0, t1 = chunk["timestamp"]` over a pair of
numbers. -/
def unpackTimestamp (ts : PyVal) : Except String (Rat × Rat) :=
  match ts with
  | PyVal.plist [PyVal.pnum a, PyVal.pnum b] => Except.ok (a, b)
  | _ => Except.error "TypeError: cannot unpack timestamp"

/-- Start boundary of a chunk (src/lib/utilities.py lines 110-117): insert
at t0 only when the chunk does not continue the previous one. -/
def maybeStartBoundary (prev t0 : Rat) (tg : TextGrid) : Except String TextGrid :=
  if t0 = prev then Except.ok tg else tgInsertBoundary tg 1 t0

/-- End boundary of a chunk (src/lib/utilities.py lines 119-127): when the
chunk ends before the total duration the source sets t1 = duration before
inserting the end boundary, so the insertion is at the TextGrid's right
edge and praat refuses it. -/
def maybeEndBoundary (duration t1 : Rat) (tg : TextGrid) :
    Except String (TextGrid × Rat) :=
  if t1 < duration then
    (tgInsertBoundary tg 1 duration).map (fun tg2 => (tg2, duration))
  else Except.ok (tg, t1)

/-- The single tier of the flat-chunk TextGrid, as praat call sites read it. -/
def firstTier (tg : TextGrid) : Except String Tier :=
  match tg.tiers with
  | (_, tier) :: _ => Except.ok tier
  | [] => Except.error "PraatError: no tier"

/-- Body of the chunk loop of the flat-chunk textgrid_from_transcription
(src/lib/utilities.py lines 101-147): degenerate chunks get an epsilon end,
a start boundary is inserted when the chunk does not continue the previous
one, the end boundary is attempted (see maybeEndBoundary), and the chunk
text is written into the interval at the midpoint time. -/
def processChunk (duration : Rat) (acc : TextGrid × Rat) (chunkv : PyVal) :
    Except String (TextGrid × Rat) := do
  let cd ← asDict chunkv
  let tpair ← unpackTimestamp (← dictGet cd "timestamp")
  let text ← asStr (← dictGet cd "text")
  let t0 := tpair.1
  let t1 := if tpair.1 = tpair.2 then tpair.2 + 1/1000 else tpair.2
  let tg ← maybeStartBoundary acc.2 t0 acc.1
  let tgp ← maybeEndBoundary duration t1 tg
  let tier ← firstTier tgp.1
  let tg2 ← tgSetIntervalText tgp.1 1 (getIntervalAt tier ((t0 + tgp.2) / 2)) text
  Except.ok (tg2, tgp.2)

/-- The membership checks at the top of the flat-chunk builder
(src/lib/utilities.py lines 74-80): ValueError when neither "chunks" nor
"text" is present; only a warning when "text" alone is present. -/
def validateFlat (transcript : PyVal) : Except String Unit := do
  let hasChunks ← pyContains transcript "chunks"
  if hasChunks = false then do
    let hasText ← pyContains transcript "text"
    if hasText = false then
      Except.error "ValueError: transcript must be of type dict with keys text and-or chunks"
    else Except.ok ()
  else Except.ok ()

/-- TextGrid creation and filling of the flat-chunk builder
(src/lib/utilities.py lines 82-149): one tier named "transcription"; the
text-only path labels the single interval with the full text and returns;
otherwise the chunk loop runs from prev_chunk_end = 0. -/
def fillFlat (transcript : PyVal) (duration : Rat) : Except String TextGrid :=
  if duration ≤ 0 then
    Except.error "PraatError: end time should be greater than start time."
  else do
    let hasChunks ← pyContains transcript "chunks"
    let hasText ← pyContains transcript "text"
    if hasChunks = false ∧ hasText = true then do
      let tdict ← asDict transcript
      let fullText ← asStr (← dictGet tdict "text")
      tgSetIntervalText ⟨[("transcription", [⟨0, duration, ""⟩])]⟩ 1 1 fullText
    else do
      let tdict ← asDict transcript
      let chunks ← asList (← dictGet tdict "chunks")
      let acc ← chunks.foldlM (processChunk duration)
        (⟨[("transcription", [⟨0, duration, ""⟩])]⟩, (0 : Rat))
      Except.ok acc.1

/-- Model of the flat-chunk textgrid_from_transcription
(src/lib/utilities.py lines 52-149): the membership validation, then the
TextGrid creation and fill. -/
def textgrid_from_transcription (transcript : PyVal) (duration : Rat) :
    Except String TextGrid := do
  let _ ← validateFlat transcript
  fillFlat transcript duration

end Utilities

/-! ### Tier coverage invariant -/

/-- The intervals chain exactly from lo to hi: each interval starts where
the previous one ended, boundaries strictly increase, the first interval
starts at lo and the last ends at hi. -/
def coversFrom (lo hi : Rat) : Tier → Prop
  | [] => lo = hi
  | iv :: rest => iv.tmin = lo ∧ iv.tmin < iv.tmax ∧ coversFrom iv.tmax hi rest

theorem exceptBind_ok {α β : Type} {e : Except String α} {f : α → Except String β} {b : β}
    (h : e >>= f = Except.ok b) : ∃ a, e = Except.ok a ∧ f a = Except.ok b := by
  cases e with
  | error s => exact absurd h (by simp [Bind.bind, Except.bind])
  | ok a => exact ⟨a, rfl, by simpa [Bind.bind, Except.bind] using h⟩

theorem exceptMap_ok {α β : Type} {e : Except String α} {f : α → β} {b : β}
    (h : e.map f = Except.ok b) : ∃ a, e = Except.ok a ∧ f a = b := by
  cases e with
  | error s => simp [Except.map] at h
  | ok a => exact ⟨a, rfl, by simpa [Except.map] using h⟩

theorem insertBoundary_coversFrom {t : Rat} :
    ∀ {tier tier' : Tier} {lo hi : Rat}, insertBoundary tier t = Except.ok tier' →
      coversFrom lo hi tier → coversFrom lo hi tier' := by
  intro tier
  induction tier with
  | nil => intro tier' lo hi h; simp [insertBoundary] at h
  | cons iv rest ih =>
    intro tier' lo hi h hc
    obtain ⟨h1, h2, h3⟩ := hc
    unfold insertBoundary at h
    by_cases hcond : iv.tmin < t ∧ t < iv.tmax
    · rw [if_pos hcond] at h
      cases h
      exact ⟨h1, hcond.1, rfl, hcond.2, h3⟩
    · rw [if_neg hcond] at h
      obtain ⟨r, hr, hr2⟩ := exceptMap_ok h
      subst hr2
      exact ⟨h1, h2, ih hr h3⟩

theorem setIntervalText_coversFrom {s : String} :
    ∀ {tier tier' : Tier} {n : Nat} {lo hi : Rat},
      setIntervalText tier n s = Except.ok tier' →
      coversFrom lo hi tier → coversFrom lo hi tier' := by
  intro tier
  induction tier with
  | nil => intro tier' n lo hi h; simp [setIntervalText] at h
  | cons iv rest ih =>
    intro tier' n lo hi h hc
    obtain ⟨h1, h2, h3⟩ := hc
    match n with
    | 0 => simp [setIntervalText] at h
    | 1 =>
      unfold setIntervalText at h
      cases h
      exact ⟨h1, h2, h3⟩
    | Nat.succ (Nat.succ m) =>
      unfold setIntervalText at h
      obtain ⟨r, hr, hr2⟩ := exceptMap_ok h
      subst hr2
      exact ⟨h1, h2, ih hr h3⟩

/-- All tiers of a TextGrid chain exactly over the full time range. -/
def TGInv (dur : Rat) (tg : TextGrid) : Prop :=
  ∀ p ∈ tg.tiers, coversFrom 0 dur p.2

theorem modifyTier_inv {P : Tier → Prop} {f : Tier → Except String Tier}
    (hf : ∀ {t t'}, f t = Except.ok t' → P t → P t') :
    ∀ {l l' : List (String × Tier)} {n : Nat},
      modifyTier l n f = Except.ok l' →
      (∀ p ∈ l, P p.2) → ∀ p ∈ l', P p.2 := by
  intro l
  induction l with
  | nil => intro l' n h; simp [modifyTier] at h
  | cons nt rest ih =>
    intro l' n h hl
    match n with
    | 0 => simp [modifyTier] at h
    | 1 =>
      unfold modifyTier at h
      obtain ⟨t', ht, ht2⟩ := exceptMap_ok h
      subst ht2
      intro p hp
      rcases List.mem_cons.mp hp with h' | h'
      · subst h'
        exact hf ht (hl nt (List.mem_cons_self nt rest))
      · exact hl p (List.mem_cons_of_mem nt h')
    | Nat.succ (Nat.succ m) =>
      unfold modifyTier at h
      obtain ⟨r, hr, hr2⟩ := exceptMap_ok h
      subst hr2
      intro p hp
      rcases List.mem_cons.mp hp with h' | h'
      · rw [h']
        exact hl nt (List.mem_cons_self nt rest)
      · exact ih hr (fun q hq => hl q (List.mem_cons_of_mem nt hq)) p h'

theorem tgInsertBoundary_inv {dur : Rat} {tg tg' : TextGrid} {n : Nat} {t : Rat}
    (h : tgInsertBoundary tg n t = Except.ok tg') (hi : TGInv dur tg) : TGInv dur tg' := by
  obtain ⟨l', hl, hl2⟩ := exceptMap_ok h
  subst hl2
  exact modifyTier_inv (fun ht hp => insertBoundary_coversFrom ht hp) hl hi

theorem tgSetIntervalText_inv {dur : Rat} {tg tg' : TextGrid} {n k : Nat} {s : String}
    (h : tgSetIntervalText tg n k s = Except.ok tg') (hi : TGInv dur tg) : TGInv dur tg' := by
  obtain ⟨l', hl, hl2⟩ := exceptMap_ok h
  subst hl2
  exact modifyTier_inv (fun ht hp => setIntervalText_coversFrom ht hp) hl hi

theorem processWord_inv {duration : Rat} {word_ntier : Nat}
    {segd : List (String × PyVal)} {words : List PyVal} {ii : Nat}
    {st : SegLoopState} {jj : Nat} {wordv : PyVal} {st' : SegLoopState} {dur : Rat}
    (h : processWord duration word_ntier segd words ii st jj wordv = Except.ok st')
    (hi : TGInv dur st.tg) : TGInv dur st'.tg := by
  unfold processWord at h
  rcases exceptBind_ok h with ⟨wd, _, h⟩
  rcases exceptBind_ok h with ⟨v1, _, h⟩
  rcases exceptBind_ok h with ⟨t0, _, h⟩
  rcases exceptBind_ok h with ⟨v2, _, h⟩
  rcases exceptBind_ok h with ⟨t1, _, h⟩
  split at h
  · rcases exceptBind_ok h with ⟨tg1, htg1, h⟩
    rcases exceptBind_ok h with ⟨v3, _, h⟩
    rcases exceptBind_ok h with ⟨txt, _, h⟩
    rcases exceptBind_ok h with ⟨tg2, htg2, h⟩
    cases h
    exact tgSetIntervalText_inv htg2 (tgInsertBoundary_inv htg1 hi)
  · split at h
    · rcases exceptBind_ok h with ⟨_, _, h⟩
      exact absurd h (by simp)
    · split at h
      · rcases exceptBind_ok h with ⟨tg1, htg1, h⟩
        rcases exceptBind_ok h with ⟨v3, _, h⟩
        rcases exceptBind_ok h with ⟨txt, _, h⟩
        rcases exceptBind_ok h with ⟨tg2, htg2, h⟩
        cases h
        exact tgSetIntervalText_inv htg2 (tgInsertBoundary_inv htg1 hi)
      · cases hst : st.text with
        | none => rw [hst] at h; exact absurd h (by simp)
        | some txt =>
          rw [hst] at h
          rcases exceptBind_ok h with ⟨tg1, htg1, h⟩
          cases h
          exact tgSetIntervalText_inv htg1 hi

theorem foldlIdxM_inv {σ α : Type} (P : σ → Prop) (f : σ → Nat → α → Except String σ)
    (hf : ∀ s k a s', f s k a = Except.ok s' → P s → P s') :
    ∀ (xs : List α) (k : Nat) (init out : σ),
      foldlIdxM f k init xs = Except.ok out → P init → P out := by
  intro xs
  induction xs with
  | nil =>
    intro k init out h hp
    unfold foldlIdxM at h
    cases h
    exact hp
  | cons a rest ih =>
    intro k init out h hp
    unfold foldlIdxM at h
    rcases exceptBind_ok h with ⟨s1, hs1, h⟩
    exact ih (k+1) s1 out h (hf init k a s1 hs1 hp)

theorem segBlock_inv {duration : Rat} {segment_level : Bool} {segments : List PyVal}
    {st : SegLoopState} {ii : Nat} {segv : PyVal} {st' : SegLoopState} {dur : Rat}
    (h : segBlock duration segment_level segments st ii segv = Except.ok st')
    (hi : TGInv dur st.tg) : TGInv dur st'.tg := by
  unfold segBlock at h
  by_cases hsl : segment_level = true
  · rw [if_pos hsl] at h
    rcases exceptBind_ok h with ⟨segd, _, h⟩
    rcases exceptBind_ok h with ⟨v1, _, h⟩
    rcases exceptBind_ok h with ⟨t0, _, h⟩
    rcases exceptBind_ok h with ⟨v2, _, h⟩
    rcases exceptBind_ok h with ⟨t1, _, h⟩
    split at h
    · rcases exceptBind_ok h with ⟨tg1, htg1, h⟩
      rcases exceptBind_ok h with ⟨v3, _, h⟩
      rcases exceptBind_ok h with ⟨txt, _, h⟩
      rcases exceptBind_ok h with ⟨tg2, htg2, h⟩
      cases h
      exact tgSetIntervalText_inv htg2 (tgInsertBoundary_inv htg1 hi)
    · split at h
      · rcases exceptBind_ok h with ⟨_, _, h⟩
        exact absurd h (by simp)
      · split at h
        · rcases exceptBind_ok h with ⟨tg1, htg1, h⟩
          rcases exceptBind_ok h with ⟨v3, _, h⟩
          rcases exceptBind_ok h with ⟨txt, _, h⟩
          rcases exceptBind_ok h with ⟨tg2, htg2, h⟩
          cases h
          exact tgSetIntervalText_inv htg2 (tgInsertBoundary_inv htg1 hi)
        · cases hst : st.text with
          | none => rw [hst] at h; exact absurd h (by simp)
          | some txt =>
            rw [hst] at h
            rcases exceptBind_ok h with ⟨tg1, htg1, h⟩
            cases h
            exact tgSetIntervalText_inv htg1 hi
  · rw [if_neg hsl] at h
    cases h
    exact hi

theorem wordBlock_inv {duration : Rat} {word_level : Bool} {word_ntier : Nat}
    {st : SegLoopState} {ii : Nat} {segv : PyVal} {st' : SegLoopState} {dur : Rat}
    (h : wordBlock duration word_level word_ntier st ii segv = Except.ok st')
    (hi : TGInv dur st.tg) : TGInv dur st'.tg := by
  unfold wordBlock at h
  by_cases hwl : word_level = true
  · rw [if_pos hwl] at h
    rcases exceptBind_ok h with ⟨segd, _, h⟩
    rcases exceptBind_ok h with ⟨v1, _, h⟩
    rcases exceptBind_ok h with ⟨words, _, h⟩
    exact foldlIdxM_inv (fun s => TGInv dur s.tg) _
      (fun s k a s' hs hp => processWord_inv hs hp) words 0 st st' h hi
  · rw [if_neg hwl] at h
    cases h
    exact hi

theorem processSegment_inv {duration : Rat} {segment_level word_level : Bool}
    {word_ntier : Nat} {segments : List PyVal} {st : SegLoopState} {ii : Nat}
    {segv : PyVal} {st' : SegLoopState} {dur : Rat}
    (h : processSegment duration segment_level word_level word_ntier segments st ii segv
      = Except.ok st')
    (hi : TGInv dur st.tg) : TGInv dur st'.tg := by
  unfold processSegment at h
  rcases exceptBind_ok h with ⟨st1, hst1, h⟩
  exact wordBlock_inv h (segBlock_inv hst1 hi)

/-- A successful segment/word loop preserves the coverage invariant. -/
theorem runSegLoop_inv {duration : Rat} {sl2 wl2 : Bool} {word_ntier : Nat}
    {tdict : List (String × PyVal)} {tg0 tg : TextGrid} {dur : Rat}
    (h : runSegLoop duration sl2 wl2 word_ntier tdict tg0 = Except.ok tg)
    (hi : TGInv dur tg0) : TGInv dur tg := by
  unfold runSegLoop at h
  split at h
  · rcases exceptBind_ok h with ⟨v2, _, h⟩
    rcases exceptBind_ok h with ⟨segs, _, h⟩
    rcases exceptBind_ok h with ⟨stf, hstf, h⟩
    cases h
    exact foldlIdxM_inv (fun s => TGInv dur s.tg) _
      (fun s k a s' hs hp => processSegment_inv hs hp) segs 0 _ stf hstf hi
  · cases h
    exact hi

/-- A successful TextGrid creation and fill implies a positive duration
and the coverage invariant for every tier of the result. -/
theorem mkAndFill_inv {duration : Rat} {sl2 wl2 : Bool} {tier_names : List String}
    {tdict : List (String × PyVal)} {tg : TextGrid}
    (h : mkAndFill duration sl2 wl2 tier_names tdict = Except.ok tg) :
    0 < duration ∧ TGInv duration tg := by
  unfold mkAndFill at h
  split at h
  · exact absurd h (by simp)
  · rename_i hdur
    have hdur' : 0 < duration := lt_of_not_le hdur
    refine ⟨hdur', ?_⟩
    rcases exceptBind_ok h with ⟨v1, _, h⟩
    rcases exceptBind_ok h with ⟨fullText, _, h⟩
    rcases exceptBind_ok h with ⟨tg1, htg1, h⟩
    have hinv1 : TGInv duration tg1 := by
      refine tgSetIntervalText_inv htg1 ?_
      intro p hp
      rcases List.mem_map.mp hp with ⟨nm, _, hnm⟩
      rw [← hnm]
      exact ⟨rfl, hdur', rfl⟩
    exact runSegLoop_inv h hinv1

/-- A successful build implies a positive duration and the coverage
invariant for every tier of the result. -/
theorem builder_inv {transcription : PyVal} {duration : Rat} {sl wl : Bool}
    {tg : TextGrid}
    (h : textgrid_from_transcription transcription duration sl wl = Except.ok tg) :
    0 < duration ∧ TGInv duration tg := by
  unfold textgrid_from_transcription at h
  rcases exceptBind_ok h with ⟨tdict, _, h⟩
  rcases exceptBind_ok h with ⟨pair2, _, h⟩
  exact mkAndFill_inv h

theorem coversFrom_mem_lt : ∀ {t : Tier} {lo hi : Rat}, coversFrom lo hi t →
    ∀ iv ∈ t, iv.tmin < iv.tmax := by
  intro t
  induction t with
  | nil => intro lo hi _ iv hiv; cases hiv
  | cons iv0 rest ih =>
    intro lo hi hc iv hiv
    rcases List.mem_cons.mp hiv with h' | h'
    · rw [h']; exact hc.2.1
    · exact ih hc.2.2 iv h'

theorem coversFrom_chain : ∀ {t : Tier} {lo hi : Rat}, coversFrom lo hi t →
    ∀ k iv iv', t[k]? = some iv → t[k+1]? = some iv' → iv.tmax = iv'.tmin := by
  intro t
  induction t with
  | nil => intro lo hi _ k iv iv' h1; simp at h1
  | cons iv0 rest ih =>
    intro lo hi hc k iv iv' h1 h2
    match k with
    | 0 =>
      simp at h1
      match rest, hc.2.2 with
      | [], hrest => simp at h2
      | iv1 :: rest', hrest =>
        simp at h2
        match h2 with
        | rfl => rw [← h1, hrest.1]
    | Nat.succ m =>
      simp at h1 h2
      exact ih hc.2.2 m iv iv' h1 h2

theorem coversFrom_head : ∀ {t : Tier} {lo hi : Rat}, coversFrom lo hi t →
    t.head?.map Interval.tmin = some lo ∨ t = [] := by
  intro t lo hi hc
  match t with
  | [] => exact Or.inr rfl
  | iv :: rest => exact Or.inl (by simp [hc.1])

theorem coversFrom_getLast : ∀ {t : Tier} {lo hi : Rat}, coversFrom lo hi t →
    t.getLast?.map Interval.tmax = some hi ∨ t = [] := by
  intro t
  induction t with
  | nil => intro lo hi _; exact Or.inr rfl
  | cons iv0 rest ih =>
    intro lo hi hc
    refine Or.inl ?_
    cases rest with
    | nil =>
      simp [List.getLast?]
      exact hc.2.2
    | cons iv1 rest' =>
      rcases ih hc.2.2 with h' | h'
      · rw [List.getLast?_cons_cons]
        exact h'
      · cases h'

/-! ### Pause redistribution closed form -/

theorem adjustStep_length (thr : Rat) (chunks : List Chunk) (i : Nat) :
    (adjustStep thr chunks i).length = chunks.length := by
  unfold adjustStep
  cases h1 : chunks[i]? with
  | none => rfl
  | some cur =>
    cases h2 : chunks[i+1]? with
    | none => rfl
    | some nxt =>
      dsimp only
      split
      · simp
      · rfl

theorem foldRange_length (thr : Rat) (chunks : List Chunk) (m : Nat) :
    ((List.range m).foldl (adjustStep thr) chunks).length = chunks.length := by
  induction m with
  | zero => rfl
  | succ m ih =>
    rw [List.range_succ, List.foldl_append, List.foldl_cons, List.foldl_nil,
      adjustStep_length, ih]

theorem startShift_zero (thr : Rat) (chunks : List Chunk) (i : Nat) :
    startShift thr chunks 0 i = 0 :=
  if_neg (by omega)

theorem endShift_zero (thr : Rat) (chunks : List Chunk) (i : Nat) :
    endShift thr chunks 0 i = 0 :=
  if_neg (by omega)

theorem startShift_succ_ne (thr : Rat) (chunks : List Chunk) {m i : Nat} (h : i ≠ m+1) :
    startShift thr chunks (m+1) i = startShift thr chunks m i :=
  if_congr (by omega) rfl rfl

theorem endShift_succ_ne (thr : Rat) (chunks : List Chunk) {m i : Nat} (h : i ≠ m) :
    endShift thr chunks (m+1) i = endShift thr chunks m i :=
  if_congr (by omega) rfl rfl

theorem startShift_succ_self (thr : Rat) (chunks : List Chunk) (m : Nat) :
    startShift thr chunks (m+1) (m+1) = pauseDist thr chunks m := by
  unfold startShift
  rw [if_pos (by omega)]
  norm_num

theorem endShift_succ_self (thr : Rat) (chunks : List Chunk) (m : Nat) :
    endShift thr chunks (m+1) m = pauseDist thr chunks m := by
  unfold endShift
  rw [if_pos (by omega)]

theorem endShift_self (thr : Rat) (chunks : List Chunk) (m : Nat) :
    endShift thr chunks m m = 0 :=
  if_neg (by omega)

theorem startShift_top (thr : Rat) (chunks : List Chunk) (m : Nat) :
    startShift thr chunks m (m+1) = 0 :=
  if_neg (by omega)

theorem pauseDist_none_right (thr : Rat) {chunks : List Chunk} {i : Nat}
    (h : chunks[i+1]? = none) : pauseDist thr chunks i = 0 := by
  unfold pauseDist
  rw [h]
  cases chunks[i]? <;> rfl

theorem adjustStep_partial (thr : Rat) (chunks : List Chunk) (m : Nat)
    (s : List Chunk)
    (hs : ∀ i, s[i]? = (chunks[i]?).map (partialAdjusted thr chunks m i)) :
    ∀ i, (adjustStep thr s m)[i]? = (chunks[i]?).map (partialAdjusted thr chunks (m+1) i) := by
  intro i
  unfold adjustStep
  rw [hs m, hs (m+1)]
  cases hm : chunks[m]? with
  | none =>
    dsimp only [Option.map_none']
    rw [hs i]
    cases hi : chunks[i]? with
    | none => rfl
    | some c =>
      have hlen : chunks.length ≤ m := by
        by_contra hc
        rw [List.getElem?_eq_getElem (by omega)] at hm
        cases hm
      have hilt : i < chunks.length := by
        by_contra hc
        rw [List.getElem?_eq_none (by omega)] at hi
        cases hi
      simp only [Option.map_some']
      congr 1
      unfold partialAdjusted
      rw [startShift_succ_ne thr chunks (by omega), endShift_succ_ne thr chunks (by omega)]
  | some cm =>
    cases hm1 : chunks[m+1]? with
    | none =>
      dsimp only [Option.map_some', Option.map_none']
      rw [hs i]
      cases hi : chunks[i]? with
      | none => rfl
      | some c =>
        have hlen : chunks.length ≤ m + 1 := by
          by_contra hc
          rw [List.getElem?_eq_getElem (by omega)] at hm1
          cases hm1
        have hilt : i < chunks.length := by
          by_contra hc
          rw [List.getElem?_eq_none (by omega)] at hi
          cases hi
        simp only [Option.map_some']
        congr 1
        unfold partialAdjusted
        rw [startShift_succ_ne thr chunks (by omega)]
        by_cases him : i = m
        · subst him
          rw [endShift_succ_self, endShift_self, pauseDist_none_right thr hm1]
        · rw [endShift_succ_ne thr chunks him]
    | some cn =>
      have hpd : pauseDist thr chunks m =
          if 0 < cn.t0 - cm.t1 then pdistOf thr (cn.t0 - cm.t1) else 0 := by
        unfold pauseDist
        rw [hm, hm1]
      have ht1 : (partialAdjusted thr chunks m m cm).t1 = cm.t1 := by
        unfold partialAdjusted
        dsimp only
        rw [endShift_self, add_zero]
      have ht0 : (partialAdjusted thr chunks m (m+1) cn).t0 = cn.t0 := by
        unfold partialAdjusted
        dsimp only
        rw [startShift_top, sub_zero]
      dsimp only [Option.map_some']
      rw [ht1, ht0]
      by_cases hpos : 0 < cn.t0 - cm.t1
      · rw [if_pos hpos]
        rw [List.getElem?_set', List.getElem?_set']
        by_cases hi1 : i = m + 1
        · subst hi1
          rw [if_pos rfl, if_neg (by omega : ¬ m = m + 1)]
          rw [hs (m+1), hm1]
          simp only [Option.map_eq_map, Option.map_some', Function.const, Option.some.injEq]
          unfold partialAdjusted
          dsimp only
          rw [startShift_succ_self, hpd, if_pos hpos,
            show endShift thr chunks m (m+1) = 0 from if_neg (by omega),
            show endShift thr chunks (m+1) (m+1) = 0 from if_neg (by omega)]
        · rw [if_neg (by omega : ¬ m + 1 = i)]
          by_cases hi0 : i = m
          · subst hi0
            rw [if_pos rfl]
            rw [hs i, hm]
            simp only [Option.map_eq_map, Option.map_some', Function.const, Option.some.injEq]
            unfold partialAdjusted
            dsimp only
            rw [endShift_succ_self, hpd, if_pos hpos,
              startShift_succ_ne thr chunks (by omega)]
          · rw [if_neg (by omega : ¬ m = i), hs i]
            cases hi : chunks[i]? with
            | none => rfl
            | some c =>
              simp only [Option.map_some', Option.some.injEq]
              unfold partialAdjusted
              rw [startShift_succ_ne thr chunks (by omega),
                endShift_succ_ne thr chunks (by omega)]
      · rw [if_neg hpos]
        rw [hs i]
        cases hi : chunks[i]? with
        | none => rfl
        | some c =>
          simp only [Option.map_some', Option.some.injEq]
          unfold partialAdjusted
          by_cases hi1 : i = m + 1
          · subst hi1
            rw [startShift_succ_self, hpd, if_neg hpos, startShift_top,
              show endShift thr chunks m (m+1) = 0 from if_neg (by omega),
              show endShift thr chunks (m+1) (m+1) = 0 from if_neg (by omega)]
          · rw [startShift_succ_ne thr chunks hi1]
            by_cases hi0 : i = m
            · subst hi0
              rw [endShift_succ_self, hpd, if_neg hpos, endShift_self]
            · rw [endShift_succ_ne thr chunks hi0]

theorem foldRange_getElem (thr : Rat) (chunks : List Chunk) :
    ∀ (m i : Nat),
      ((List.range m).foldl (adjustStep thr) chunks)[i]? =
        (chunks[i]?).map (partialAdjusted thr chunks m i) := by
  intro m
  induction m with
  | zero =>
    intro i
    simp only [List.range_zero, List.foldl_nil]
    cases h : chunks[i]? with
    | none => rfl
    | some c =>
      cases c with
      | mk tx a b =>
        simp [partialAdjusted, startShift_zero, endShift_zero]
  | succ m ih =>
    intro i
    rw [List.range_succ, List.foldl_append, List.foldl_cons, List.foldl_nil]
    exact adjustStep_partial thr chunks m _ ih i

/-- Pointwise closed form of the whole pass: chunk i keeps its text, its
start moves left by the distribution at pair i-1 (nothing for i = 0), and
its end moves right by the distribution at pair i. -/
theorem adjust_getElem (thr : Rat) (chunks : List Chunk) (i : Nat) :
    (adjust_pauses_for_hf_pipeline_output chunks thr)[i]? =
      (chunks[i]?).map (adjustedChunk thr chunks i) := by
  unfold adjust_pauses_for_hf_pipeline_output
  rw [foldRange_getElem]
  cases hi : chunks[i]? with
  | none => rfl
  | some c =>
    have hilt : i < chunks.length := by
      by_contra hc
      rw [List.getElem?_eq_none (by omega)] at hi
      cases hi
    simp only [Option.map_some', Option.some.injEq]
    unfold partialAdjusted adjustedChunk
    have hstart : startShift thr chunks (chunks.length - 1) i =
        (if i = 0 then 0 else pauseDist thr chunks (i - 1)) := by
      unfold startShift
      by_cases hi0 : i = 0
      · subst hi0
        rw [if_neg (by omega), if_pos rfl]
      · rw [if_pos (by omega), if_neg hi0]
    have hend : endShift thr chunks (chunks.length - 1) i = pauseDist thr chunks i := by
      unfold endShift
      by_cases hlast : i < chunks.length - 1
      · rw [if_pos hlast]
      · rw [if_neg hlast, pauseDist_none_right thr (List.getElem?_eq_none (by omega))]
    rw [hstart, hend]

theorem adjust_length (thr : Rat) (chunks : List Chunk) :
    (adjust_pauses_for_hf_pipeline_output chunks thr).length = chunks.length :=
  foldRange_length thr chunks (chunks.length - 1)

/-- When no original pause exceeds the threshold, the adjusted list has no
positive pause left anywhere. -/
theorem pauseDist_adjust_zero (thr : Rat) (chunks : List Chunk)
    (h : ∀ i cur nxt, chunks[i]? = some cur → chunks[i+1]? = some nxt →
      nxt.t0 - cur.t1 ≤ thr) :
    ∀ i, pauseDist thr (adjust_pauses_for_hf_pipeline_output chunks thr) i = 0 := by
  intro i
  unfold pauseDist
  rw [adjust_getElem, adjust_getElem]
  cases hi : chunks[i]? with
  | none => rfl
  | some c =>
    cases hi1 : chunks[i+1]? with
    | none => rfl
    | some cn =>
      dsimp only [Option.map_some']
      have hgap : (adjustedChunk thr chunks (i+1) cn).t0 - (adjustedChunk thr chunks i c).t1 =
          (cn.t0 - c.t1) - 2 * pauseDist thr chunks i := by
        unfold adjustedChunk
        dsimp only
        rw [if_neg (by omega : ¬ i + 1 = 0)]
        norm_num
        ring
      rw [hgap]
      have hpd : pauseDist thr chunks i =
          if 0 < cn.t0 - c.t1 then pdistOf thr (cn.t0 - c.t1) else 0 := by
        unfold pauseDist
        rw [hi, hi1]
      by_cases hpos : 0 < cn.t0 - c.t1
      · have hle : cn.t0 - c.t1 ≤ thr := h i c cn hi hi1
        have hpd2 : pauseDist thr chunks i = (cn.t0 - c.t1) / 2 := by
          rw [hpd, if_pos hpos]
          unfold pdistOf
          rw [if_neg (by linarith)]
        rw [hpd2, if_neg (by linarith)]
      · have hpd2 : pauseDist thr chunks i = 0 := by rw [hpd, if_neg hpos]
        rw [hpd2, if_neg (by linarith [not_lt.mp hpos])]

/-- A list with no positive pause anywhere is a fixed point of the pass. -/
theorem adjust_fixed (thr : Rat) (ys : List Chunk)
    (h : ∀ i, pauseDist thr ys i = 0) :
    adjust_pauses_for_hf_pipeline_output ys thr = ys := by
  apply List.ext_getElem?
  intro i
  rw [adjust_getElem]
  cases hi : ys[i]? with
  | none => rfl
  | some c =>
    simp only [Option.map_some', Option.some.injEq]
    unfold adjustedChunk
    have hif : (if i = 0 then (0 : Rat) else pauseDist thr ys (i - 1)) = 0 := by
      split
      · rfl
      · exact h (i - 1)
    rw [hif, h i]
    cases c with
    | mk tx a b => simp

/-- With the identity reference layout the heap step is the value step. -/
theorem adjustStepRef_range (thr : Rat) (n : Nat) (st : List Chunk) (i : Nat)
    (hlen : st.length = n) :
    adjustStepRef thr (List.range n) st i = adjustStep thr st i := by
  unfold adjustStepRef adjustStep
  by_cases h1 : i < n
  · rw [List.getElem?_range h1]
    by_cases h2 : i + 1 < n
    · rw [List.getElem?_range h2]
    · rw [List.getElem?_eq_none (by simpa using h2)]
      rw [List.getElem?_eq_none (by omega : st.length ≤ i + 1)]
      cases st[i]? <;> rfl
  · rw [List.getElem?_eq_none (by simpa using h1)]
    rw [List.getElem?_eq_none (by omega : st.length ≤ i)]

theorem foldRef_range (thr : Rat) (n : Nat) :
    ∀ (m : Nat) (st : List Chunk), st.length = n →
      (List.range m).foldl (adjustStepRef thr (List.range n)) st =
        (List.range m).foldl (adjustStep thr) st := by
  intro m
  induction m with
  | zero => intro st _; rfl
  | succ m ih =>
    intro st hlen
    rw [List.range_succ, List.foldl_append, List.foldl_append,
      List.foldl_cons, List.foldl_cons, List.foldl_nil, List.foldl_nil, ih st hlen,
      adjustStepRef_range thr n _ m (by rw [foldRange_length]; exact hlen)]

/-- The heap-level pass over the standard layout: the returned list is the
same reference list, and the store afterwards holds exactly the adjusted
chunk values, so the dicts reachable from the caller's original list have
been updated in place. -/
theorem adjustH_range (store : List Chunk) (thr : Rat) :
    adjustH store (List.range store.length) thr =
      (adjust_pauses_for_hf_pipeline_output store thr, List.range store.length) := by
  unfold adjustH adjust_pauses_for_hf_pipeline_output
  dsimp only
  rw [List.length_range, foldRef_range thr store.length (store.length - 1) store rfl]

/-! ### Dictionary and error-propagation helper lemmas -/

theorem hasKey_of_dictGet {d : List (String × PyVal)} {k : String} {v : PyVal}
    (h : dictGet d k = Except.ok v) : hasKey d k = true := by
  unfold dictGet at h
  unfold hasKey
  cases hf : d.find? (fun p => p.1 == k) with
  | none => rw [hf] at h; simp at h
  | some p => rfl

theorem dictGet_none {d : List (String × PyVal)} {k : String}
    (h : hasKey d k = false) : dictGet d k = Except.error ("KeyError: " ++ k) := by
  unfold hasKey at h
  unfold dictGet
  cases hf : d.find? (fun p => p.1 == k) with
  | none => rfl
  | some p => rw [hf] at h; simp at h

theorem pyIndex_zero_cons (x : PyVal) (l : List PyVal) :
    pyIndex (x :: l) 0 = Except.ok x := by
  unfold pyIndex
  norm_num

theorem exceptBind_error {α β : Type} {e : Except String α} {f : α → Except String β}
    {m : String} (h : e >>= f = Except.error m) :
    e = Except.error m ∨ ∃ a, e = Except.ok a ∧ f a = Except.error m := by
  cases e with
  | error s =>
    left
    have : s = m := by
      have h' : (Except.error s : Except String β) = Except.error m := by
        simpa [Bind.bind, Except.bind] using h
      cases h'
      rfl
    rw [this]
  | ok a => exact Or.inr ⟨a, rfl, by simpa [Bind.bind, Except.bind] using h⟩

theorem foldlM_ne_error {σ α : Type} (f : σ → α → Except String σ) (m : String)
    (hf : ∀ s a, f s a ≠ Except.error m) :
    ∀ (xs : List α) (s : σ), xs.foldlM f s ≠ Except.error m := by
  intro xs
  induction xs with
  | nil => intro s h; cases h
  | cons a rest ih =>
    intro s h
    rw [List.foldlM_cons] at h
    rcases exceptBind_error h with h' | ⟨s', _, h'⟩
    · exact hf s a h'
    · exact ih s' h'

theorem ok_bind {α β : Type} (a : α) (f : α → Except String β) :
    (Except.ok a >>= f) = f a := rfl

theorem error_bind {α β : Type} (m : String) (f : α → Except String β) :
    ((Except.error m : Except String α) >>= f) = Except.error m := rfl

/-! ### Claim theorems -/

/-- Claim C1: for every ordered chunk sequence and split_threshold, the
pause redistributor returns a sequence of the same length in which each
adjacent pair with positive gap g has current.end increased by
min(g, split_threshold)/2 and next.start decreased by the same amount
(new gap exactly 0 when g ≤ split_threshold, exactly g - split_threshold
otherwise), while each pair with gap g ≤ 0 is left unmodified. -/
theorem claim_C1 (chunks : List Chunk) (thr : Rat) (i : Nat) (cur nxt : Chunk)
    (h1 : chunks[i]? = some cur) (h2 : chunks[i+1]? = some nxt) :
    (adjust_pauses_for_hf_pipeline_output chunks thr).length = chunks.length ∧
    ∃ cur' nxt',
      (adjust_pauses_for_hf_pipeline_output chunks thr)[i]? = some cur' ∧
      (adjust_pauses_for_hf_pipeline_output chunks thr)[i+1]? = some nxt' ∧
      (0 < nxt.t0 - cur.t1 →
        cur'.t1 = cur.t1 + min (nxt.t0 - cur.t1) thr / 2 ∧
        nxt'.t0 = nxt.t0 - min (nxt.t0 - cur.t1) thr / 2 ∧
        nxt'.t0 - cur'.t1 =
          (if nxt.t0 - cur.t1 ≤ thr then 0 else nxt.t0 - cur.t1 - thr)) ∧
      (nxt.t0 - cur.t1 ≤ 0 →
        cur'.t1 = cur.t1 ∧ nxt'.t0 = nxt.t0) := by
  have hpdpos : 0 < nxt.t0 - cur.t1 →
      pauseDist thr chunks i = min (nxt.t0 - cur.t1) thr / 2 := by
    intro hpos
    unfold pauseDist
    rw [h1, h2]
    dsimp only
    rw [if_pos hpos]
    unfold pdistOf
    rcases le_or_lt (nxt.t0 - cur.t1) thr with hle | hlt
    · rw [if_neg (not_lt.mpr hle), min_eq_left hle]
    · rw [if_pos hlt, min_eq_right hlt.le]
  have hpdzero : nxt.t0 - cur.t1 ≤ 0 → pauseDist thr chunks i = 0 := by
    intro hle
    unfold pauseDist
    rw [h1, h2]
    dsimp only
    rw [if_neg (not_lt.mpr hle)]
  refine ⟨adjust_length thr chunks, adjustedChunk thr chunks i cur,
    adjustedChunk thr chunks (i+1) nxt, ?_, ?_, ?_, ?_⟩
  · rw [adjust_getElem, h1]
    rfl
  · rw [adjust_getElem, h2]
    rfl
  · intro hpos
    refine ⟨?_, ?_, ?_⟩
    · show cur.t1 + pauseDist thr chunks i = _
      rw [hpdpos hpos]
    · show nxt.t0 - (if i + 1 = 0 then 0 else pauseDist thr chunks i) = _
      rw [if_neg (by omega), hpdpos hpos]
    · show nxt.t0 - (if i + 1 = 0 then 0 else pauseDist thr chunks i)
        - (cur.t1 + pauseDist thr chunks i) = _
      rw [if_neg (by omega), hpdpos hpos]
      rcases le_or_lt (nxt.t0 - cur.t1) thr with hle | hlt
      · rw [if_pos hle, min_eq_left hle]
        ring
      · rw [if_neg (not_le.mpr hlt), min_eq_right hlt.le]
        ring
  · intro hle
    constructor
    · show cur.t1 + pauseDist thr chunks i = _
      rw [hpdzero hle, add_zero]
    · show nxt.t0 - (if i + 1 = 0 then 0 else pauseDist thr chunks i) = _
      rw [if_neg (by omega), hpdzero hle, sub_zero]

/-- Witness for C1 at the spec's own example: chunks (0,1) and (1.1,2)
with the default threshold 0.12 end up sharing the boundary 1.05. -/
theorem claim_C1_witness :
    (adjust_pauses_for_hf_pipeline_output [⟨"a",0,1⟩, ⟨"b",11/10,2⟩] (12/100)).length =
      ([⟨"a",0,1⟩, ⟨"b",11/10,2⟩] : List Chunk).length ∧
    (adjust_pauses_for_hf_pipeline_output [⟨"a",0,1⟩, ⟨"b",11/10,2⟩] (12/100))[0]? =
      some ⟨"a", 0, 21/20⟩ ∧
    (adjust_pauses_for_hf_pipeline_output [⟨"a",0,1⟩, ⟨"b",11/10,2⟩] (12/100))[1]? =
      some ⟨"b", 21/20, 2⟩ := by
  have h := claim_C1 [⟨"a",0,1⟩, ⟨"b",11/10,2⟩] (12/100) 0 ⟨"a",0,1⟩ ⟨"b",11/10,2⟩ rfl rfl
  exact ⟨h.1, by decide, by decide⟩

/-- Claim C2: whenever the tier builder returns a document, every tier's
intervals are contiguous and ordered (each interval's end equals the next
interval's start), with no gaps and no overlaps, the first interval
starting at 0 and the last interval ending exactly at duration. -/
theorem claim_C2 (transcription : PyVal) (duration : Rat) (sl wl : Bool)
    (tg : TextGrid)
    (h : textgrid_from_transcription transcription duration sl wl = Except.ok tg) :
    ∀ p ∈ tg.tiers, p.2 ≠ [] ∧
      (∀ k iv iv', p.2[k]? = some iv → p.2[k+1]? = some iv' → iv.tmax = iv'.tmin) ∧
      (∀ iv ∈ p.2, iv.tmin < iv.tmax) ∧
      p.2.head?.map Interval.tmin = some 0 ∧
      p.2.getLast?.map Interval.tmax = some duration := by
  obtain ⟨hdur, hinv⟩ := builder_inv h
  intro p hp
  have hc := hinv p hp
  have hne : p.2 ≠ [] := by
    intro he
    rw [he] at hc
    exact absurd hc (ne_of_lt hdur)
  refine ⟨hne, coversFrom_chain hc, coversFrom_mem_lt hc, ?_, ?_⟩
  · rcases coversFrom_head hc with h' | h'
    · exact h'
    · exact absurd h' hne
  · rcases coversFrom_getLast hc with h' | h'
    · exact h'
    · exact absurd h' hne

/-- Witness for C2: the minimal valid record builds a one-tier document
whose tier is nonempty, starts at 0 and ends at the duration. -/
theorem claim_C2_witness :
    ([⟨0, 1, "hi"⟩] : Tier) ≠ [] ∧
    ([⟨0, 1, "hi"⟩] : Tier).head?.map Interval.tmin = some 0 ∧
    ([⟨0, 1, "hi"⟩] : Tier).getLast?.map Interval.tmax = some 1 := by
  have h := claim_C2 (PyVal.pdict [("text", PyVal.pstr "hi")]) 1 false false
    (TextGrid.mk [("text", [⟨0, 1, "hi"⟩])]) rfl ("text", [⟨0, 1, "hi"⟩]) (by simp)
  exact ⟨h.1, h.2.2.2.1, h.2.2.2.2⟩

/-- Claim C3 evaluation at a failing input: a zero-duration second segment
takes the same-boundary branch, whose stray statement applies unary plus
to a str, so the whole build raises TypeError instead of labelling the
previous interval with the joined texts. -/
theorem claim_C3_eval :
    textgrid_from_transcription (PyVal.pdict [("text", PyVal.pstr "t"),
      ("segments", PyVal.plist [
        PyVal.pdict [("start", PyVal.pnum 0), ("end", PyVal.pnum (1/2)),
          ("text", PyVal.pstr "a")],
        PyVal.pdict [("start", PyVal.pnum (1/2)), ("end", PyVal.pnum (1/2)),
          ("text", PyVal.pstr "b")]])]) 1 true false
      = Except.error "TypeError: bad operand type for unary +: str" := by rfl

/-- Claim C4 evaluation at a failing input: the second segment ends exactly
at the duration, so no branch of the if/elif chain assigns text; the final
interval keeps its end at duration but is labelled with the previous
segment's text "a" instead of its own text "b". -/
theorem claim_C4_eval :
    textgrid_from_transcription (PyVal.pdict [("text", PyVal.pstr "t"),
      ("segments", PyVal.plist [
        PyVal.pdict [("start", PyVal.pnum 0), ("end", PyVal.pnum (1/2)),
          ("text", PyVal.pstr "a")],
        PyVal.pdict [("start", PyVal.pnum (1/2)), ("end", PyVal.pnum 1),
          ("text", PyVal.pstr "b")]])]) 1 true false
      = Except.ok ⟨[("text", [⟨0, 1, "t"⟩]),
          ("segments", [⟨0, 1/2, "a"⟩, ⟨1/2, 1, "a"⟩])]⟩ := by rfl

/-- Claim C6: an input that is not a record, or a record without the "text"
field, makes the build fail with a validation error; no TextGrid is
returned. -/
theorem claim_C6 (v : PyVal) (duration : Rat) (sl wl : Bool)
    (h : (∀ d, v ≠ PyVal.pdict d) ∨
      ∃ d, v = PyVal.pdict d ∧ hasKey d "text" = false) :
    ∃ e, textgrid_from_transcription v duration sl wl = Except.error e := by
  have hct : ∃ e, checkTrans v = Except.error e := by
    rcases h with h | ⟨d, rfl, hd⟩
    · cases v with
      | pdict d => exact absurd rfl (h d)
      | pstr s => exact ⟨_, rfl⟩
      | pnum q => exact ⟨_, rfl⟩
      | plist l => exact ⟨_, rfl⟩
    · refine ⟨"ValueError: text not found in transcription.", ?_⟩
      unfold checkTrans
      dsimp only
      rw [hd]
      rfl
  obtain ⟨e, he⟩ := hct
  refine ⟨e, ?_⟩
  unfold textgrid_from_transcription
  rw [he]
  rfl

/-- Witness for C6: a non-record input fails. -/
theorem claim_C6_witness :
    ∃ e, textgrid_from_transcription (PyVal.pnum 0) 1 false false = Except.error e :=
  claim_C6 (PyVal.pnum 0) 1 false false
    (Or.inl (fun _ h => PyVal.noConfusion h))

/-- Claim C5 counterexample: a record with "text" but no "words" anywhere,
with word_level requested, makes the build fail with a KeyError (the
word_level check reads transcription["segments"][0] unconditionally),
contradicting "the build does not fail". -/
theorem claim_C5_cex :
    textgrid_from_transcription (PyVal.pdict [("text", PyVal.pstr "hi")]) 1 false true
      = Except.error "KeyError: segments" := by rfl

/-- Claim C5 as amended: requesting segment_level without a "segments"
field only disables the feature (the build succeeds, returning a document
without that tier); requesting word_level when "segments" is present and
its first segment lacks "words" likewise only disables word_level; but
requesting word_level when "segments" is absent fails with a lookup
error — the flat root-level "words" shape is not supported. -/
theorem claim_C5_amended (d : List (String × PyVal)) (txt : String) (duration : Rat)
    (htext : dictGet d "text" = Except.ok (PyVal.pstr txt)) (hdur : 0 < duration) :
    (hasKey d "segments" = false →
      textgrid_from_transcription (PyVal.pdict d) duration true false
        = Except.ok ⟨[("text", [⟨0, duration, txt⟩])]⟩ ∧
      ∃ e, textgrid_from_transcription (PyVal.pdict d) duration false true
        = Except.error e) ∧
    (∀ sd rest, dictGet d "segments" = Except.ok (PyVal.plist (PyVal.pdict sd :: rest)) →
      hasKey sd "words" = false →
      textgrid_from_transcription (PyVal.pdict d) duration false true
        = Except.ok ⟨[("text", [⟨0, duration, txt⟩])]⟩) := by
  have hkt : hasKey d "text" = true := hasKey_of_dictGet htext
  have hct : checkTrans (PyVal.pdict d) = Except.ok d := by
    unfold checkTrans
    dsimp only
    rw [hkt]
    rfl
  have hmk : mkAndFill duration false false ["text"] d
      = Except.ok ⟨[("text", [⟨0, duration, txt⟩])]⟩ := by
    unfold mkAndFill
    rw [if_neg (not_le.mpr hdur)]
    rw [htext, ok_bind]
    rfl
  refine ⟨fun hseg => ⟨?_, ?_⟩, fun sd rest hsegs hwords => ?_⟩
  · unfold textgrid_from_transcription
    rw [hct, ok_bind]
    simp only [if_pos rfl, hseg, Bool.false_eq_true, if_false]
    exact hmk
  · refine ⟨"KeyError: segments", ?_⟩
    unfold textgrid_from_transcription
    rw [hct, ok_bind]
    simp only [Bool.false_eq_true, if_false]
    have hwc : wordCheck d true ["text"] = Except.error "KeyError: segments" := by
      unfold wordCheck
      rw [if_pos rfl, dictGet_none hseg]
      rfl
    rw [hwc]
    rfl
  · unfold textgrid_from_transcription
    rw [hct, ok_bind]
    simp only [Bool.false_eq_true, if_false]
    have hwc : wordCheck d true ["text"] = Except.ok (false, ["text"]) := by
      unfold wordCheck
      rw [if_pos rfl, hsegs, ok_bind]
      dsimp only [asList, ok_bind]
      rw [pyIndex_zero_cons, ok_bind]
      dsimp only [asDict, ok_bind]
      rw [hwords]
      rfl
    rw [hwc, ok_bind]
    exact hmk

/-- Witness for the amended C5 at concrete inputs exercising both parts. -/
theorem claim_C5_amended_witness :
    (hasKey [("text", PyVal.pstr "hi")] "segments" = false →
      textgrid_from_transcription (PyVal.pdict [("text", PyVal.pstr "hi")]) 1 true false
        = Except.ok ⟨[("text", [⟨0, 1, "hi"⟩])]⟩ ∧
      ∃ e, textgrid_from_transcription (PyVal.pdict [("text", PyVal.pstr "hi")]) 1 false true
        = Except.error e) ∧
    (∀ sd rest,
      dictGet [("text", PyVal.pstr "hi")] "segments"
        = Except.ok (PyVal.plist (PyVal.pdict sd :: rest)) →
      hasKey sd "words" = false →
      textgrid_from_transcription (PyVal.pdict [("text", PyVal.pstr "hi")]) 1 false true
        = Except.ok ⟨[("text", [⟨0, 1, "hi"⟩])]⟩) :=
  claim_C5_amended [("text", PyVal.pstr "hi")] "hi" 1 rfl (by norm_num)

/-- Claim C7 evaluation at a failing input: a zero-duration first word does
insert the boundary at end + 0.001, but the label assignment reads key
"word" on the segment dict (source line 158) instead of on the word dict,
so the build raises KeyError rather than assigning the word's own label. -/
theorem claim_C7_eval :
    textgrid_from_transcription (PyVal.pdict [("text", PyVal.pstr "t"),
      ("segments", PyVal.plist [
        PyVal.pdict [("start", PyVal.pnum 0), ("end", PyVal.pnum 0),
          ("text", PyVal.pstr "s"),
          ("words", PyVal.plist [
            PyVal.pdict [("start", PyVal.pnum 0), ("end", PyVal.pnum 0),
              ("word", PyVal.pstr "w")]])]])]) 1 false true
      = Except.error "KeyError: word" := by rfl

/-- Claim C8 counterexample: the chunk list copy is shallow, so the loop's
timestamp assignments update the chunk dicts the caller's original list
still references; reading the original references after the call yields
changed timestamps. Store addresses 0 and 1 hold the two chunk dicts and
the caller's chunk list is [0, 1]. -/
theorem claim_C8_cex :
    readRefs (adjustH [⟨"a", 0, 1⟩, ⟨"b", 13/10, 2⟩] [0, 1] (12/100)).1 [0, 1] ≠
      readRefs [⟨"a", 0, 1⟩, ⟨"b", 13/10, 2⟩] [0, 1] := by decide

/-- Claim C8 as amended: the call mutates the caller's input. The returned
chunk list is the very same reference list that was passed in, and the
store after the call holds exactly the adjusted chunk values, so the
caller's original references now resolve to the adjusted timestamps. -/
theorem claim_C8_amended (store : List Chunk) (thr : Rat) :
    (adjustH store (List.range store.length) thr).2 = List.range store.length ∧
    (adjustH store (List.range store.length) thr).1 =
      adjust_pauses_for_hf_pipeline_output store thr := by
  rw [adjustH_range]
  exact ⟨rfl, rfl⟩

/-- Claim C9 counterexample: with gap 0.3 and threshold 0.12 one pass
leaves a residual gap of 0.18, which a second pass redistributes again, so
the pass is not idempotent on its own output. -/
theorem claim_C9_cex :
    adjust_pauses_for_hf_pipeline_output
        (adjust_pauses_for_hf_pipeline_output [⟨"a", 0, 1⟩, ⟨"b", 13/10, 2⟩] (12/100))
        (12/100) ≠
      adjust_pauses_for_hf_pipeline_output [⟨"a", 0, 1⟩, ⟨"b", 13/10, 2⟩] (12/100) := by
  decide

/-- Claim C9 as amended: the pass is idempotent on input whose positive
gaps all lie within the threshold — every such gap closes to exactly 0, so
a second pass finds no positive gap and changes nothing. (When some gap
exceeds the threshold, the residual positive gap is redistributed again,
as the counterexample shows.) -/
theorem claim_C9_amended (chunks : List Chunk) (thr : Rat)
    (h : ∀ i cur nxt, chunks[i]? = some cur → chunks[i+1]? = some nxt →
      nxt.t0 - cur.t1 ≤ thr) :
    adjust_pauses_for_hf_pipeline_output
        (adjust_pauses_for_hf_pipeline_output chunks thr) thr =
      adjust_pauses_for_hf_pipeline_output chunks thr :=
  adjust_fixed thr _ (pauseDist_adjust_zero thr chunks h)

/-- Witness for the amended C9: both gaps of the example list stay within
the threshold, and the double application equals the single one. -/
theorem claim_C9_amended_witness :
    adjust_pauses_for_hf_pipeline_output
        (adjust_pauses_for_hf_pipeline_output [⟨"a", 0, 1⟩, ⟨"b", 11/10, 2⟩] (12/100))
        (12/100) =
      adjust_pauses_for_hf_pipeline_output [⟨"a", 0, 1⟩, ⟨"b", 11/10, 2⟩] (12/100) := by
  apply claim_C9_amended
  intro i cur nxt h1 h2
  match i with
  | 0 =>
    cases h1
    cases h2
    decide
  | 1 => simp at h2
  | n + 2 => simp at h1

theorem asDict_error {v : PyVal} {e : String} (h : asDict v = Except.error e) :
    e = "TypeError: expected dict" := by
  cases v <;> cases h <;> rfl

theorem asStr_error {v : PyVal} {e : String} (h : asStr v = Except.error e) :
    e = "TypeError: expected str" := by
  cases v <;> cases h <;> rfl

theorem dictGet_error {d : List (String × PyVal)} {k : String} {e : String}
    (h : dictGet d k = Except.error e) : e = "KeyError: " ++ k := by
  unfold dictGet at h
  cases hf : d.find? (fun p => p.1 == k) with
  | none => rw [hf] at h; cases h; rfl
  | some p => rw [hf] at h; cases h

theorem insertBoundary_error {t : Rat} :
    ∀ {tier : Tier} {e : String}, insertBoundary tier t = Except.error e →
      e = "PraatError: cannot add boundary" := by
  intro tier
  induction tier with
  | nil =>
    intro e h
    cases h
    rfl
  | cons iv rest ih =>
    intro e h
    unfold insertBoundary at h
    split at h
    · cases h
    · cases hrec : insertBoundary rest t with
      | error s =>
        rw [hrec] at h
        simp only [Except.map] at h
        cases h
        exact ih hrec
      | ok r =>
        rw [hrec] at h
        simp only [Except.map] at h
        cases h

theorem setIntervalText_error {s : String} :
    ∀ {tier : Tier} {n : Nat} {e : String}, setIntervalText tier n s = Except.error e →
      e = "PraatError: interval out of range" := by
  intro tier
  induction tier with
  | nil =>
    intro n e h
    cases h
    rfl
  | cons iv rest ih =>
    intro n e h
    match n with
    | 0 =>
      cases h
      rfl
    | 1 => cases h
    | Nat.succ (Nat.succ m) =>
      unfold setIntervalText at h
      cases hrec : setIntervalText rest (Nat.succ m) s with
      | error s' =>
        rw [hrec] at h
        simp only [Except.map] at h
        cases h
        exact ih hrec
      | ok r =>
        rw [hrec] at h
        simp only [Except.map] at h
        cases h

theorem modifyTier_error {f : Tier → Except String Tier}
    (hf : ∀ tier e', f tier = Except.error e' → e' = "PraatError: cannot add boundary"
      ∨ e' = "PraatError: interval out of range") :
    ∀ {l : List (String × Tier)} {n : Nat} {e : String},
      modifyTier l n f = Except.error e →
      e = "PraatError: tier out of range" ∨ e = "PraatError: cannot add boundary"
        ∨ e = "PraatError: interval out of range" := by
  intro l
  induction l with
  | nil =>
    intro n e h
    cases h
    exact Or.inl rfl
  | cons nt rest ih =>
    intro n e h
    match n with
    | 0 =>
      cases h
      exact Or.inl rfl
    | 1 =>
      unfold modifyTier at h
      cases hrec : f nt.2 with
      | error s =>
        rw [hrec] at h
        simp only [Except.map] at h
        cases h
        exact Or.inr (hf nt.2 _ hrec)
      | ok r =>
        rw [hrec] at h
        simp only [Except.map] at h
        cases h
    | Nat.succ (Nat.succ m) =>
      unfold modifyTier at h
      cases hrec : modifyTier rest (Nat.succ m) f with
      | error s =>
        rw [hrec] at h
        simp only [Except.map] at h
        cases h
        exact ih hrec
      | ok r =>
        rw [hrec] at h
        simp only [Except.map] at h
        cases h

theorem tgInsertBoundary_error {tg : TextGrid} {n : Nat} {t : Rat} {e : String}
    (h : tgInsertBoundary tg n t = Except.error e) :
    e = "PraatError: tier out of range" ∨ e = "PraatError: cannot add boundary"
      ∨ e = "PraatError: interval out of range" := by
  unfold tgInsertBoundary at h
  cases hrec : modifyTier tg.tiers n (fun tier => insertBoundary tier t) with
  | error s =>
    rw [hrec] at h
    simp only [Except.map] at h
    cases h
    exact modifyTier_error (fun tier e' h' => Or.inl (insertBoundary_error h')) hrec
  | ok r =>
    rw [hrec] at h
    simp only [Except.map] at h
    cases h

theorem tgSetIntervalText_error {tg : TextGrid} {n k : Nat} {s : String} {e : String}
    (h : tgSetIntervalText tg n k s = Except.error e) :
    e = "PraatError: tier out of range" ∨ e = "PraatError: cannot add boundary"
      ∨ e = "PraatError: interval out of range" := by
  unfold tgSetIntervalText at h
  cases hrec : modifyTier tg.tiers n (fun tier => setIntervalText tier k s) with
  | error s' =>
    rw [hrec] at h
    simp only [Except.map] at h
    cases h
    exact modifyTier_error (fun tier e' h' => Or.inr (setIntervalText_error h')) hrec
  | ok r =>
    rw [hrec] at h
    simp only [Except.map] at h
    cases h

theorem asList_error {v : PyVal} {e : String} (h : asList v = Except.error e) :
    e = "TypeError: expected list" := by
  cases v <;> cases h <;> rfl

theorem unpackTimestamp_error {ts : PyVal} {e : String}
    (h : Utilities.unpackTimestamp ts = Except.error e) :
    e = "TypeError: cannot unpack timestamp" := by
  unfold Utilities.unpackTimestamp at h
  split at h
  · cases h
  · cases h
    rfl

theorem maybeStartBoundary_error {prev t0 : Rat} {tg : TextGrid} {e : String}
    (h : Utilities.maybeStartBoundary prev t0 tg = Except.error e) :
    e = "PraatError: tier out of range" ∨ e = "PraatError: cannot add boundary"
      ∨ e = "PraatError: interval out of range" := by
  unfold Utilities.maybeStartBoundary at h
  split at h
  · cases h
  · exact tgInsertBoundary_error h

theorem maybeEndBoundary_error {duration t1 : Rat} {tg : TextGrid} {e : String}
    (h : Utilities.maybeEndBoundary duration t1 tg = Except.error e) :
    e = "PraatError: tier out of range" ∨ e = "PraatError: cannot add boundary"
      ∨ e = "PraatError: interval out of range" := by
  unfold Utilities.maybeEndBoundary at h
  split at h
  · cases hrec : tgInsertBoundary tg 1 duration with
    | error s =>
      rw [hrec] at h
      simp only [Except.map] at h
      cases h
      exact tgInsertBoundary_error hrec
    | ok r =>
      rw [hrec] at h
      simp only [Except.map] at h
      cases h
  · cases h

theorem firstTier_error {tg : TextGrid} {e : String}
    (h : Utilities.firstTier tg = Except.error e) : e = "PraatError: no tier" := by
  unfold Utilities.firstTier at h
  split at h
  · cases h
  · cases h
    rfl

/-- The chunk loop body of the flat-chunk builder never raises the
validation ValueError: its own failures are type, key, unpack or praat
errors. -/
theorem processChunk_ne_valError (duration : Rat) (acc : TextGrid × Rat) (c : PyVal) :
    Utilities.processChunk duration acc c ≠
      Except.error "ValueError: transcript must be of type dict with keys text and-or chunks" := by
  intro h
  unfold Utilities.processChunk at h
  rcases exceptBind_error h with h | ⟨cd, _, h⟩
  · exact absurd (asDict_error h) (by decide)
  rcases exceptBind_error h with h | ⟨ts, _, h⟩
  · exact absurd (dictGet_error h) (by decide)
  rcases exceptBind_error h with h | ⟨tpair, _, h⟩
  · exact absurd (unpackTimestamp_error h) (by decide)
  rcases exceptBind_error h with h | ⟨tv, _, h⟩
  · exact absurd (dictGet_error h) (by decide)
  rcases exceptBind_error h with h | ⟨text, _, h⟩
  · exact absurd (asStr_error h) (by decide)
  rcases exceptBind_error h with h | ⟨tg1, _, h⟩
  · rcases maybeStartBoundary_error h with h' | h' | h' <;> exact absurd h' (by decide)
  rcases exceptBind_error h with h | ⟨tgp, _, h⟩
  · rcases maybeEndBoundary_error h with h' | h' | h' <;> exact absurd h' (by decide)
  rcases exceptBind_error h with h | ⟨tier, _, h⟩
  · exact absurd (firstTier_error h) (by decide)
  rcases exceptBind_error h with h | ⟨tg3, _, h⟩
  · rcases tgSetIntervalText_error h with h' | h' | h' <;> exact absurd h' (by decide)
  cases h

/-- Claim C10: in the flat-chunk builder, a record with "text" but without
"chunks" does not fail: a warning is logged and a one-tier document whose
single interval spans the whole duration, labelled with the full text, is
returned; the validation ValueError is raised exactly when both "chunks"
and "text" are absent. -/
theorem claim_C10 (d : List (String × PyVal)) (duration : Rat) (txt : String)
    (hdur : 0 < duration) :
    (hasKey d "chunks" = false → dictGet d "text" = Except.ok (PyVal.pstr txt) →
      Utilities.textgrid_from_transcription (PyVal.pdict d) duration
        = Except.ok ⟨[("transcription", [⟨0, duration, txt⟩])]⟩) ∧
    (hasKey d "chunks" = false → hasKey d "text" = false →
      Utilities.textgrid_from_transcription (PyVal.pdict d) duration
        = Except.error
          "ValueError: transcript must be of type dict with keys text and-or chunks") ∧
    (hasKey d "chunks" = true ∨ hasKey d "text" = true →
      Utilities.textgrid_from_transcription (PyVal.pdict d) duration
        ≠ Except.error
          "ValueError: transcript must be of type dict with keys text and-or chunks") := by
  refine ⟨?_, ?_, ?_⟩
  · intro hchunks htext
    have hkt : hasKey d "text" = true := hasKey_of_dictGet htext
    have hv : Utilities.validateFlat (PyVal.pdict d) = Except.ok () := by
      unfold Utilities.validateFlat pyContains
      dsimp only
      rw [hchunks, hkt]
      rfl
    unfold Utilities.textgrid_from_transcription
    rw [hv, ok_bind]
    unfold Utilities.fillFlat pyContains
    rw [if_neg (not_le.mpr hdur)]
    dsimp only
    simp only [ok_bind]
    rw [hchunks, hkt, if_pos ⟨rfl, rfl⟩]
    dsimp only [asDict, ok_bind]
    rw [htext, ok_bind]
    rfl
  · intro hchunks htextn
    have hv : Utilities.validateFlat (PyVal.pdict d) = Except.error
        "ValueError: transcript must be of type dict with keys text and-or chunks" := by
      unfold Utilities.validateFlat pyContains
      dsimp only
      rw [hchunks, htextn]
      rfl
    unfold Utilities.textgrid_from_transcription
    rw [hv]
    rfl
  · intro hor h
    unfold Utilities.textgrid_from_transcription at h
    rcases exceptBind_error h with h | ⟨u, _, h⟩
    · unfold Utilities.validateFlat pyContains at h
      dsimp only at h
      simp only [ok_bind] at h
      rcases hor with h' | h'
      · rw [h'] at h
        simp at h
      · split at h
        · rw [h'] at h
          simp at h
        · cases h
    · unfold Utilities.fillFlat pyContains at h
      split at h
      · simp at h
      · dsimp only at h
        simp only [ok_bind] at h
        split at h
        · rcases exceptBind_error h with h | ⟨tdict, _, h⟩
          · exact absurd (asDict_error h) (by decide)
          rcases exceptBind_error h with h | ⟨tv, _, h⟩
          · exact absurd (dictGet_error h) (by decide)
          rcases exceptBind_error h with h | ⟨text, _, h⟩
          · exact absurd (asStr_error h) (by decide)
          rcases tgSetIntervalText_error h with h' | h' | h' <;> exact absurd h' (by decide)
        · rcases exceptBind_error h with h | ⟨tdict, _, h⟩
          · exact absurd (asDict_error h) (by decide)
          rcases exceptBind_error h with h | ⟨chv, _, h⟩
          · exact absurd (dictGet_error h) (by decide)
          rcases exceptBind_error h with h | ⟨chunks, _, h⟩
          · exact absurd (asList_error h) (by decide)
          rcases exceptBind_error h with h | ⟨accf, _, h⟩
          · exact foldlM_ne_error _ _ (fun s a => processChunk_ne_valError duration s a)
              chunks _ h
          cases h

/-- Witness for C10: text-only record, duration 1. -/
theorem claim_C10_witness :
    (hasKey [("text", PyVal.pstr "hi")] "chunks" = false →
      dictGet [("text", PyVal.pstr "hi")] "text" = Except.ok (PyVal.pstr "hi") →
      Utilities.textgrid_from_transcription (PyVal.pdict [("text", PyVal.pstr "hi")]) 1
        = Except.ok ⟨[("transcription", [⟨0, 1, "hi"⟩])]⟩) ∧
    (hasKey [("text", PyVal.pstr "hi")] "chunks" = false →
      hasKey [("text", PyVal.pstr "hi")] "text" = false →
      Utilities.textgrid_from_transcription (PyVal.pdict [("text", PyVal.pstr "hi")]) 1
        = Except.error
          "ValueError: transcript must be of type dict with keys text and-or chunks") ∧
    (hasKey [("text", PyVal.pstr "hi")] "chunks" = true ∨
        hasKey [("text", PyVal.pstr "hi")] "text" = true →
      Utilities.textgrid_from_transcription (PyVal.pdict [("text", PyVal.pstr "hi")]) 1
        ≠ Except.error
          "ValueError: transcript must be of type dict with keys text and-or chunks") :=
  claim_C10 [("text", PyVal.pstr "hi")] 1 "hi" (by norm_num)

end FT
